import Mathlib

/-!
Verification of the Wa-Tor predator-prey simulation (Go source, `src/Wa-tor`).

The embedding below translates the per-tick worker logic (`RunPartition`),
the reconciler (`processRemovalsAndAdditions`), the partition construction
(`NewGame`), and the boundary-lock collection and sorting code into Lean.

Go pointer identity is modelled by numeric entity ids: the canonical fish and
shark registries are lists of ids, and the mutable record behind each pointer
lives in a store (a function from id to data).  A worker's snapshot (the Go
`fishCopy` / `sharkCopy`) is then just the list of ids taken at tick start,
aliasing the same store, exactly as the Go slices alias the same pointers.

Randomness (`rand.Intn(4)`) is modelled by an explicit tape of numbers
consumed left to right; each consumption takes the head modulo 4.

Grid dimensions (`xdim`, `ydim`), compile-time constants in the Go source,
are a `Cfg` parameter so that claims quantifying over configurations can be
stated; the wrap arithmetic is translated literally from the source.
-/

namespace Wator

/-- Grid dimensions (the Go constants `xdim`, `ydim`). -/
structure Cfg where
  xdim : Nat
  ydim : Nat
deriving DecidableEq

/-- One grid cell: empty, or occupied by the fish/shark with the given id
(Go: `grid [xdim][ydim]Entity` holding `nil`, `*Fish` or `*Shark`). -/
inductive Cell where
  | empty : Cell
  | fish : Nat → Cell
  | shark : Nat → Cell
deriving DecidableEq

/-- The mutable fields of Go's `Fish` struct. -/
structure FishData where
  x : Nat
  y : Nat
  breedTimer : Nat
deriving DecidableEq

/-- The mutable fields of Go's `Shark` struct. -/
structure SharkData where
  x : Nat
  y : Nat
  starve : Nat
  breedTimer : Nat
deriving DecidableEq

/-- Simulation state: the grid, the entity stores (pointer identity becomes
id-indexed data), the canonical registries `fishL`/`sharkL` (Go `g.fish`,
`g.shark` as lists of pointers), a fresh-id counter, the random tape, and the
per-tick local intent lists collected by the workers. -/
structure St where
  grid : Nat × Nat → Cell
  fishD : Nat → FishData
  sharkD : Nat → SharkData
  fishL : List Nat
  sharkL : List Nat
  nextId : Nat
  tape : List Nat
  fishAdds : List Nat
  fishRems : List Nat
  sharkAdds : List Nat
  sharkRems : List Nat

/-- Write one grid cell (Go: `g.grid[x][y] = ...`). -/
def setCell (g : Nat × Nat → Cell) (p : Nat × Nat) (c : Cell) : Nat × Nat → Cell :=
  fun q => if q = p then c else g q

/-- Update the fish store at one id (mutation through a `*Fish` pointer). -/
def updF (f : Nat → FishData) (i : Nat) (v : FishData) : Nat → FishData :=
  fun j => if j = i then v else f j

/-- Update the shark store at one id (mutation through a `*Shark` pointer). -/
def updS (f : Nat → SharkData) (i : Nat) (v : SharkData) : Nat → SharkData :=
  fun j => if j = i then v else f j

/-- `rand.Intn(4)`: consume the tape head modulo 4 (0 when the tape is out). -/
def randIntn4 : List Nat → Nat × List Nat
  | [] => (0, [])
  | d :: t => (d % 4, t)

/-- Toroidal destination of a move, translated literally from the source's
direction `switch` (0 = north, 1 = south, 2 = east, 3 = west, each with its
wrap branch). -/
def wrapDest (cfg : Cfg) (x y d : Nat) : Nat × Nat :=
  match d with
  | 0 => (x, if y > 0 then y - 1 else cfg.ydim - 1)
  | 1 => (x, if y < cfg.ydim - 1 then y + 1 else 0)
  | 2 => ((if x < cfg.xdim - 1 then x + 1 else 0), y)
  | _ => ((if x > 0 then x - 1 else cfg.xdim - 1), y)

/-- A partition: the rectangular range plus the optional boundary-lock ids of
its four sides (Go `Partition` of the 4/8-thread variants; `nil` mutex
pointers become `none`). -/
structure Part where
  startX : Nat
  endX : Nat
  startY : Nat
  endY : Nat
  left : Option Nat
  right : Option Nat
  top : Option Nat
  bottom : Option Nat
deriving DecidableEq

/-- The partition-membership test used to skip entities
(Go: `x < p.startX || x > p.endX || y < p.startY || y > p.endY`). -/
def outsidePart (p : Part) (x y : Nat) : Bool :=
  x < p.startX || x > p.endX || y < p.startY || y > p.endY

/-- The single full-grid partition (the degenerate one-worker tiling). -/
def fullPart (cfg : Cfg) : Part :=
  ⟨0, cfg.xdim - 1, 0, cfg.ydim - 1, none, none, none, none⟩

/-- A successful fish move from `(x, y)` to `(nx, ny)` (the body of the
`if g.grid[newX][newY] == nil` branch of the fish loop): clear the source,
update the fish's position, place it at the destination, increment
`breedTimer`; at 5 reset the timer and spawn a new fish at the vacated source
cell, recording it as a local addition. -/
def fishMoveAt (st : St) (fid x y nx ny : Nat) : St :=
  let fd := st.fishD fid
  let g2 := setCell (setCell st.grid (x, y) Cell.empty) (nx, ny) (Cell.fish fid)
  let bt := fd.breedTimer + 1
  if bt = 5 then
    let nid := st.nextId
    { st with
      grid := setCell g2 (x, y) (Cell.fish nid),
      fishD := updF (updF st.fishD fid ⟨nx, ny, 0⟩) nid ⟨x, y, 0⟩,
      nextId := nid + 1,
      fishAdds := st.fishAdds ++ [nid] }
  else
    { st with grid := g2, fishD := updF st.fishD fid ⟨nx, ny, bt⟩ }

/-- One direction attempt for a fish: sample a direction from the tape,
compute the wrapped destination, and move only if that cell is empty.
Returns the new state and the `moved` flag. -/
def fishTryDir (cfg : Cfg) (st : St) (fid : Nat) : St × Bool :=
  let fd := st.fishD fid
  let r := randIntn4 st.tape
  let q := wrapDest cfg fd.x fd.y r.1
  let st1 := { st with tape := r.2 }
  if st1.grid q = Cell.empty then
    (fishMoveAt st1 fid fd.x fd.y q.1 q.2, true)
  else
    (st1, false)

/-- The fish direction loop (`for dir := 0; dir < 4; dir++` with `break` on
success), with an explicit attempt counter. -/
def fishTryDirs (cfg : Cfg) (st : St) (fid : Nat) : Nat → St × Bool
  | 0 => (st, false)
  | Nat.succ n =>
    let r := fishTryDir cfg st fid
    if r.2 then r else fishTryDirs cfg r.1 fid n

/-- Process one fish of the snapshot: skip it when outside the partition,
otherwise run up to four direction attempts. -/
def fishStep (cfg : Cfg) (p : Part) (st : St) (fid : Nat) : St :=
  if outsidePart p (st.fishD fid).x (st.fishD fid).y then st
  else (fishTryDirs cfg st fid 4).1

/-- Does the cell hold a fish (Go: `g.grid[newX][newY] != nil &&
g.grid[newX][newY].GetType() == "fish"`)? -/
def isFishCell : Cell → Bool
  | Cell.fish _ => true
  | _ => false

/-- The position test of the eaten-fish search: the snapshot entry's current
position equals the destination (Go: `fx, fy := fish.GetPosition();
fx == newX && fy == newY`). -/
def posMatch (fD : Nat → FishData) (nx ny fid : Nat) : Bool :=
  (fD fid).x == nx && (fD fid).y == ny

/-- A shark eating at `(nx, ny)` (the body of the pass-1 success branch):
clear the source, move the shark onto the fish's cell (erasing the occupant),
reset `starve` to 0, increment `breedTimer`; at 5 reset it and spawn a new
shark at the vacated cell; finally search the tick-start snapshot for the
first fish whose current position is the destination and, only if one is
found, record it as a local removal. -/
def sharkEatAt (st : St) (sid : Nat) (snap : List Nat) (x y nx ny : Nat) : St :=
  let sd := st.sharkD sid
  let g2 := setCell (setCell st.grid (x, y) Cell.empty) (nx, ny) (Cell.shark sid)
  let bt := sd.breedTimer + 1
  let st1 :=
    if bt = 5 then
      let nid := st.nextId
      { st with
        grid := setCell g2 (x, y) (Cell.shark nid),
        sharkD := updS (updS st.sharkD sid ⟨nx, ny, 0, 0⟩) nid ⟨x, y, 0, 0⟩,
        nextId := nid + 1,
        sharkAdds := st.sharkAdds ++ [nid] }
    else
      { st with grid := g2, sharkD := updS st.sharkD sid ⟨nx, ny, 0, bt⟩ }
  match snap.find? (posMatch st1.fishD nx ny) with
  | some fid => { st1 with fishRems := st1.fishRems ++ [fid] }
  | none => st1

/-- One pass-1 direction attempt for a shark: move only onto a fish cell. -/
def sharkTryEatDir (cfg : Cfg) (st : St) (sid : Nat) (snap : List Nat) : St × Bool :=
  let sd := st.sharkD sid
  let r := randIntn4 st.tape
  let q := wrapDest cfg sd.x sd.y r.1
  let st1 := { st with tape := r.2 }
  if isFishCell (st1.grid q) then
    (sharkEatAt st1 sid snap sd.x sd.y q.1 q.2, true)
  else
    (st1, false)

/-- The shark pass-1 direction loop. -/
def sharkTryEats (cfg : Cfg) (st : St) (sid : Nat) (snap : List Nat) : Nat → St × Bool
  | 0 => (st, false)
  | Nat.succ n =>
    let r := sharkTryEatDir cfg st sid snap
    if r.2 then r else sharkTryEats cfg r.1 sid snap n

/-- A shark moving onto an empty cell (the body of the pass-2 success
branch): clear the source, place the shark, increment `starve`; at 5 the
shark dies (destination cell cleared again, shark recorded as a local
removal, no breeding); otherwise increment `breedTimer` and at 6 reset it and
spawn a new shark at the vacated cell. -/
def sharkMoveAt (st : St) (sid x y nx ny : Nat) : St :=
  let sd := st.sharkD sid
  let g2 := setCell (setCell st.grid (x, y) Cell.empty) (nx, ny) (Cell.shark sid)
  let sv := sd.starve + 1
  if sv = 5 then
    { st with
      grid := setCell g2 (nx, ny) Cell.empty,
      sharkD := updS st.sharkD sid ⟨nx, ny, sv, sd.breedTimer⟩,
      sharkRems := st.sharkRems ++ [sid] }
  else
    let bt := sd.breedTimer + 1
    if bt = 6 then
      let nid := st.nextId
      { st with
        grid := setCell g2 (x, y) (Cell.shark nid),
        sharkD := updS (updS st.sharkD sid ⟨nx, ny, sv, 0⟩) nid ⟨x, y, 0, 0⟩,
        nextId := nid + 1,
        sharkAdds := st.sharkAdds ++ [nid] }
    else
      { st with grid := g2, sharkD := updS st.sharkD sid ⟨nx, ny, sv, bt⟩ }

/-- One pass-2 direction attempt for a shark: move only onto an empty cell. -/
def sharkTryMoveDir (cfg : Cfg) (st : St) (sid : Nat) : St × Bool :=
  let sd := st.sharkD sid
  let r := randIntn4 st.tape
  let q := wrapDest cfg sd.x sd.y r.1
  let st1 := { st with tape := r.2 }
  if st1.grid q = Cell.empty then
    (sharkMoveAt st1 sid sd.x sd.y q.1 q.2, true)
  else
    (st1, false)

/-- The shark pass-2 direction loop. -/
def sharkTryMoves (cfg : Cfg) (st : St) (sid : Nat) : Nat → St × Bool
  | 0 => (st, false)
  | Nat.succ n =>
    let r := sharkTryMoveDir cfg st sid
    if r.2 then r else sharkTryMoves cfg r.1 sid n

/-- Process one shark of the snapshot: skip it when outside the partition,
otherwise run pass 1 (eat a fish) and, only if pass 1 found nothing, pass 2
(move to an empty cell). -/
def sharkStep (cfg : Cfg) (p : Part) (st : St) (sid : Nat) (snap : List Nat) : St :=
  if outsidePart p (st.sharkD sid).x (st.sharkD sid).y then st
  else
    let r := sharkTryEats cfg st sid snap 4
    if r.2 then r.1 else (sharkTryMoves cfg r.1 sid 4).1

/-- One worker pass (`RunPartition`): snapshot the canonical lists, process
every snapshot fish, then every snapshot shark.  The canonical lists are
never written here; local intents accumulate in the state's local fields. -/
def runPartition (cfg : Cfg) (p : Part) (st : St) : St :=
  let fishSnap := st.fishL
  let sharkSnap := st.sharkL
  let st1 := fishSnap.foldl (fun s fid => fishStep cfg p s fid) st
  sharkSnap.foldl (fun s sid => sharkStep cfg p s sid fishSnap) st1

/-- The reconciler's per-species retain loop (Go: build `newFish` by
appending every canonical entity not in the removal map).  The removal map
keyed by pointer identity becomes membership in the removal id list. -/
def buildKeep (rems : List Nat) (l : List Nat) : List Nat :=
  l.foldl (fun acc i => if rems.contains i then acc else acc ++ [i]) []

/-- The reconciler (`processRemovalsAndAdditions`): for fish and sharks
independently, drop the removed entities from the canonical list, then append
all collected additions. -/
def processRemovalsAndAdditions (st : St) : St :=
  { st with
    fishL := buildKeep st.fishRems st.fishL ++ st.fishAdds,
    sharkL := buildKeep st.sharkRems st.sharkL ++ st.sharkAdds }

/-- One tick (`Update`): reset the local intent lists, install this tick's
random tape, run every partition's worker, then reconcile. -/
def tick (cfg : Cfg) (ps : List Part) (st : St) (tape : List Nat) : St :=
  let st0 := { st with
    tape := tape, fishAdds := [], fishRems := [], sharkAdds := [], sharkRems := [] }
  let st1 := ps.foldl (fun s p => runPartition cfg p s) st0
  processRemovalsAndAdditions st1

/-- Run a sequence of ticks, one tape per tick. -/
def runTicks (cfg : Cfg) (ps : List Part) (st : St) : List (List Nat) → St
  | [] => st
  | t :: ts => runTicks cfg ps (tick cfg ps st t) ts

/-- Grid/registry agreement checked after a reconciler pass: every registry
entity occupies exactly the grid cell at its recorded position, every
non-empty grid cell holds a registry entity recorded at that position, and
neither registry list contains a duplicate reference. -/
def consistentB (cfg : Cfg) (st : St) : Bool :=
  (st.fishL.all fun fid =>
    st.grid ((st.fishD fid).x, (st.fishD fid).y) == Cell.fish fid) &&
  (st.sharkL.all fun sid =>
    st.grid ((st.sharkD sid).x, (st.sharkD sid).y) == Cell.shark sid) &&
  ((List.range cfg.xdim).all fun x => (List.range cfg.ydim).all fun y =>
    match st.grid (x, y) with
    | Cell.empty => true
    | Cell.fish fid =>
      st.fishL.contains fid && (st.fishD fid).x == x && (st.fishD fid).y == y
    | Cell.shark sid =>
      st.sharkL.contains sid && (st.sharkD sid).x == x && (st.sharkD sid).y == y) &&
  decide st.fishL.Nodup && decide st.sharkL.Nodup

/-- Build a grid from a finite list of placements over an empty background. -/
def gridOf (cells : List ((Nat × Nat) × Cell)) : Nat × Nat → Cell :=
  cells.foldr (fun pc g => setCell g pc.1 pc.2) (fun _ => Cell.empty)

/-- C1 scenario: a 4×4 grid with one fish at (1,1) whose breed timer is 4 and
one shark at (1,0).  With tape [2, 1] the fish moves east and breeds at its
vacated cell; the shark then moves south and eats the newborn. -/
def c1Cfg : Cfg := ⟨4, 4⟩

def c1Init : St :=
  { grid := gridOf [((1, 1), Cell.fish 0), ((1, 0), Cell.shark 0)],
    fishD := fun i => if i = 0 then ⟨1, 1, 4⟩ else ⟨0, 0, 0⟩,
    sharkD := fun i => if i = 0 then ⟨1, 0, 0, 0⟩ else ⟨0, 0, 0, 0⟩,
    fishL := [0], sharkL := [0], nextId := 1,
    tape := [], fishAdds := [], fishRems := [], sharkAdds := [], sharkRems := [] }

def c1Post : St := tick c1Cfg [fullPart c1Cfg] c1Init [2, 1]

/-- C7 scenario: an 8×3 grid with a single fish at (1,1), breed timer 0; each
tick's tape makes it move east on the first attempt. -/
def c7Cfg : Cfg := ⟨8, 3⟩

def c7Init : St :=
  { grid := gridOf [((1, 1), Cell.fish 0)],
    fishD := fun i => if i = 0 then ⟨1, 1, 0⟩ else ⟨0, 0, 0⟩,
    sharkD := fun _ => ⟨0, 0, 0, 0⟩,
    fishL := [0], sharkL := [], nextId := 1,
    tape := [], fishAdds := [], fishRems := [], sharkAdds := [], sharkRems := [] }

def c7Run (n : Nat) : St :=
  runTicks c7Cfg [fullPart c7Cfg] c7Init (List.replicate n [2])

/-- C5 scenario: an 8×3 grid with a single shark at (1,1); each tick's tape
makes pass 1 sample north four times (no fish there) and pass 2 move east. -/
def c5Cfg : Cfg := ⟨8, 3⟩

def c5Init : St :=
  { grid := gridOf [((1, 1), Cell.shark 0)],
    fishD := fun _ => ⟨0, 0, 0⟩,
    sharkD := fun i => if i = 0 then ⟨1, 1, 0, 0⟩ else ⟨0, 0, 0, 0⟩,
    fishL := [], sharkL := [0], nextId := 1,
    tape := [], fishAdds := [], fishRems := [], sharkAdds := [], sharkRems := [] }

def c5Run (n : Nat) : St :=
  runTicks c5Cfg [fullPart c5Cfg] c5Init (List.replicate n [0, 0, 0, 0, 2])

/-- C9 scenario: a 2×2 grid completely filled with fish — no entity has any
legal move. -/
def c9Cfg : Cfg := ⟨2, 2⟩

def c9Init : St :=
  { grid := gridOf [((0, 0), Cell.fish 0), ((1, 0), Cell.fish 1),
                    ((0, 1), Cell.fish 2), ((1, 1), Cell.fish 3)],
    fishD := fun i =>
      if i = 0 then ⟨0, 0, 0⟩ else if i = 1 then ⟨1, 0, 0⟩
      else if i = 2 then ⟨0, 1, 0⟩ else if i = 3 then ⟨1, 1, 0⟩ else ⟨0, 0, 0⟩,
    sharkD := fun _ => ⟨0, 0, 0, 0⟩,
    fishL := [0, 1, 2, 3], sharkL := [], nextId := 4,
    tape := [], fishAdds := [], fishRems := [], sharkAdds := [], sharkRems := [] }

/-- C6 counterexample state: a 3×3 grid, a shark (id 0) at (0,0), a fish
(id 7) at (0,1) that is not in the snapshot list (it models a fish bred
earlier in the same tick), and the snapshot fish (id 0) currently at (9,9).
The tape makes the shark sample south first. -/
def c6Cfg : Cfg := ⟨3, 3⟩

def c6CtrSt : St :=
  { grid := gridOf [((0, 0), Cell.shark 0), ((0, 1), Cell.fish 7)],
    fishD := fun i => if i = 7 then ⟨0, 1, 0⟩ else ⟨9, 9, 0⟩,
    sharkD := fun i => if i = 0 then ⟨0, 0, 0, 0⟩ else ⟨0, 0, 0, 0⟩,
    fishL := [0], sharkL := [0], nextId := 8,
    tape := [1], fishAdds := [], fishRems := [], sharkAdds := [], sharkRems := [] }

/-- Lock ids of a boundary crossing, translated from the 8-thread
`RunPartition` (the 4-thread variant is the same code without the corner
branch; the corner branch is kept here).  Appending `nil` mutexes is skipped
exactly as in the source's `!= nil` guards. -/
def optLock : Option Nat → List Nat
  | some i => [i]
  | none => []

def optLock2 : Option Nat → Option Nat → List Nat
  | some a, some b => [a, b]
  | _, _ => []

def collectVert (p : Part) (x nx : Nat) : List Nat :=
  if (x = p.startX ∧ nx < x) ∨ (x = p.endX ∧ nx > x) then
    (if nx < x then optLock p.left else []) ++
    (if nx > x then optLock p.right else [])
  else []

def collectHoriz (p : Part) (y ny : Nat) : List Nat :=
  if (y = p.startY ∧ ny < y) ∨ (y = p.endY ∧ ny > y) then
    (if ny < y then optLock p.top else []) ++
    (if ny > y then optLock p.bottom else [])
  else []

def collectCorner (p : Part) (x y nx ny : Nat) : List Nat :=
  if (x = p.startX ∧ y = p.startY ∧ nx < x ∧ ny < y) ∨
     (x = p.endX ∧ y = p.startY ∧ nx > x ∧ ny < y) ∨
     (x = p.startX ∧ y = p.endY ∧ nx < x ∧ ny > y) ∨
     (x = p.endX ∧ y = p.endY ∧ nx > x ∧ ny > y) then
    (if nx < x ∧ ny < y then optLock2 p.left p.top else []) ++
    (if nx > x ∧ ny < y then optLock2 p.right p.top else []) ++
    (if nx < x ∧ ny > y then optLock2 p.left p.bottom else []) ++
    (if nx > x ∧ ny > y then optLock2 p.right p.bottom else [])
  else []

def collectBoundary (p : Part) (x y nx ny : Nat) : List Nat :=
  collectVert p x nx ++ collectHoriz p y ny ++ collectCorner p x y nx ny

/-- The lock-acquisition ordering: the source sorts the collected mutexes by
their raw runtime addresses ascending (`sort.Slice` over
`uintptr(unsafe.Pointer(...))`).  Addresses are modelled by an assignment
`addr` from lock ids to numbers; the sort is an insertion sort, which agrees
with any correct sort on the ascending-address order. -/
def insertByAddr (addr : Nat → Nat) (a : Nat) : List Nat → List Nat
  | [] => [a]
  | b :: l => if addr a < addr b then a :: b :: l else b :: insertByAddr addr a l

def sortLocks (addr : Nat → Nat) : List Nat → List Nat
  | [] => []
  | a :: l => insertByAddr addr a (sortLocks addr l)

/-- Two concrete address assignments for the same two locks. -/
def addrA : Nat → Nat := fun i => i

def addrB : Nat → Nat := fun i => if i = 0 then 1 else if i = 1 then 0 else i

/-- The 4-thread `NewGame` quadrants for the 50×50 grid: lock id 0 is the
single vertical boundary mutex, lock id 1 the single horizontal one; outer
edges have no mutex (`nil` in the source). -/
def p4TopLeft : Part := ⟨0, 24, 0, 24, none, some 0, none, some 1⟩

def p4TopRight : Part := ⟨25, 49, 0, 24, some 0, none, none, some 1⟩

def p4BottomLeft : Part := ⟨0, 24, 25, 49, none, some 0, some 1, none⟩

def p4BottomRight : Part := ⟨25, 49, 25, 49, some 0, none, some 1, none⟩

def newGamePartitions4 : List Part :=
  [p4TopLeft, p4TopRight, p4BottomLeft, p4BottomRight]

/-- The 2-thread variant's partitions (`NewGame`: `partitionSize := xdim / 2`,
two column ranges), parameterized by the grid width. -/
structure Part2 where
  startX : Nat
  endX : Nat
deriving DecidableEq

def newGamePartitions2 (xdim : Nat) : List Part2 :=
  [⟨0, xdim / 2 - 1⟩, ⟨xdim / 2, xdim - 1⟩]

/-- Column membership in a 2-thread partition. -/
def inPart2 (p : Part2) (c : Nat) : Prop := p.startX ≤ c ∧ c ≤ p.endX

instance (p : Part2) (c : Nat) : Decidable (inPart2 p c) :=
  inferInstanceAs (Decidable (p.startX ≤ c ∧ c ≤ p.endX))

/-- The 2-thread variant's boundary-crossing test
(Go: `isCrossingBoundary := (newX < p.startX) || (newX > p.endX)`). -/
def isCrossing2 (p : Part2) (nx : Nat) : Bool := nx < p.startX || nx > p.endX

/-- The columns for which the 2-thread `NewGame` allocates a boundary mutex
(`boundaryMutexes` map keys): for every partition, `endX+1` (or 0 on wrap)
and `startX-1` (or `xdim-1` on wrap). -/
def boundaryKeys2 (xdim : Nat) : List Nat :=
  (newGamePartitions2 xdim).foldl (fun ks p =>
    (ks ++ [if p.endX + 1 < xdim then p.endX + 1 else 0]) ++
    [if 1 ≤ p.startX then p.startX - 1 else xdim - 1]) []

/-- A fish with no legal move: every one of the four wrapped destinations is
occupied. -/
@[reducible] def fishBlocked (cfg : Cfg) (st : St) (fid : Nat) : Prop :=
  ∀ d, d < 4 →
    st.grid (wrapDest cfg (st.fishD fid).x (st.fishD fid).y d) ≠ Cell.empty

/-- A shark with no legal move: no wrapped destination holds a fish and none
is empty. -/
@[reducible] def sharkBlocked (cfg : Cfg) (st : St) (sid : Nat) : Prop :=
  ∀ d, d < 4 →
    isFishCell (st.grid (wrapDest cfg (st.sharkD sid).x (st.sharkD sid).y d)) = false ∧
    st.grid (wrapDest cfg (st.sharkD sid).x (st.sharkD sid).y d) ≠ Cell.empty

/-- Agreement on every state component except the random tape. -/
def tapeOnly (st st1 : St) : Prop :=
  st1.grid = st.grid ∧ st1.fishD = st.fishD ∧ st1.sharkD = st.sharkD ∧
  st1.fishL = st.fishL ∧ st1.sharkL = st.sharkL ∧ st1.nextId = st.nextId ∧
  st1.fishAdds = st.fishAdds ∧ st1.fishRems = st.fishRems ∧
  st1.sharkAdds = st.sharkAdds ∧ st1.sharkRems = st.sharkRems

theorem buildKeep_go (rems l acc : List Nat) :
    l.foldl (fun acc i => if rems.contains i then acc else acc ++ [i]) acc
      = acc ++ l.filter (fun i => !(rems.contains i)) := by
  induction l generalizing acc with
  | nil => simp
  | cons a l ih =>
    simp only [List.foldl_cons, List.filter_cons]
    cases hc : rems.contains a
    · rw [if_neg (by decide), if_pos (by decide), ih]
      simp [List.append_assoc]
    · rw [if_pos rfl, if_neg (by decide)]
      exact ih acc

theorem buildKeep_eq_filter (rems l : List Nat) :
    buildKeep rems l = l.filter (fun i => !(rems.contains i)) := by
  have h := buildKeep_go rems l []
  simpa [buildKeep] using h

/-- C8: one Reconciler pass yields, for fish and sharks independently,
exactly the old canonical list with every member of the removal set dropped
(survivors in their original order) followed by all collected additions. -/
theorem C8_reconciler_filter_append (st : St) :
    (processRemovalsAndAdditions st).fishL
        = st.fishL.filter (fun i => !(st.fishRems.contains i)) ++ st.fishAdds ∧
    (processRemovalsAndAdditions st).sharkL
        = st.sharkL.filter (fun i => !(st.sharkRems.contains i)) ++ st.sharkAdds :=
  ⟨by simp [processRemovalsAndAdditions, buildKeep_eq_filter],
   by simp [processRemovalsAndAdditions, buildKeep_eq_filter]⟩

/-- C1 fails on the code: starting from a consistent state (one fish with
breed timer 4, one shark below it), after one reconciled tick the canonical
fish list contains the newborn fish (id 1) bred and then eaten during the
same tick, while its recorded cell (1,1) holds the shark — the lists and the
grid do not agree after the Reconciler pass. -/
theorem C1_orphan_after_reconcile :
    consistentB c1Cfg c1Init = true ∧
    consistentB c1Cfg c1Post = false ∧
    c1Post.fishL = [0, 1] ∧
    c1Post.fishD 1 = ⟨1, 1, 0⟩ ∧
    c1Post.grid (1, 1) = Cell.shark 0 ∧
    c1Post.fishRems = [] := by decide

/-- C2 fails as stated: the acquisition order of two boundary locks produced
by the source's sort is a function of the locks' runtime addresses — two
different address assignments to the same two locks yield two different
acquisition orders, so the order is not independent of runtime addresses. -/
theorem C2_order_depends_on_addresses :
    sortLocks addrA [0, 1] = [0, 1] ∧
    sortLocks addrB [0, 1] = [1, 0] ∧
    sortLocks addrA [0, 1] ≠ sortLocks addrB [0, 1] := by decide

/-- C3 fails as stated: at width 51, which the two workers' split does not
tile evenly (51 is odd), `NewGame` partition construction does not fail —
it returns the two partitions {0..24} and {25..50} normally (the source has
no error path at all), and the grid is still fully covered. -/
theorem C3_uneven_tiling_no_error :
    51 % 2 = 1 ∧ newGamePartitions2 51 = [⟨0, 24⟩, ⟨25, 50⟩] := by decide

/-- C4 fails on the 4-thread code: a west move from (0,5) in the top-left
quadrant wraps to (49,5), a cell of the top-right quadrant, yet the crossing
collects no boundary lock: the wrap is not detected (49 < 0 is false) and
the outer-edge mutex is nil anyway. -/
theorem C4_wrap_crossing_unguarded :
    wrapDest ⟨50, 50⟩ 0 5 3 = (49, 5) ∧
    p4TopLeft.endX < 49 ∧
    collectBoundary p4TopLeft 0 5 49 5 = [] := by decide

theorem insertByAddr_perm (addr : Nat → Nat) (a : Nat) (l : List Nat) :
    (insertByAddr addr a l).Perm (a :: l) := by
  induction l with
  | nil => simp [insertByAddr]
  | cons b t ih =>
    simp only [insertByAddr]
    split
    · exact List.Perm.refl _
    · exact (ih.cons b).trans (List.Perm.swap a b t)

theorem sortLocks_perm (addr : Nat → Nat) (l : List Nat) :
    (sortLocks addr l).Perm l := by
  induction l with
  | nil => simp [sortLocks]
  | cons a t ih =>
    simp only [sortLocks]
    exact (insertByAddr_perm addr a _).trans (ih.cons a)

theorem insertByAddr_pairwise (addr : Nat → Nat) (a : Nat) (l : List Nat)
    (h : l.Pairwise fun u v => addr u ≤ addr v) :
    (insertByAddr addr a l).Pairwise fun u v => addr u ≤ addr v := by
  induction l with
  | nil => simp [insertByAddr]
  | cons b t ih =>
    rcases List.pairwise_cons.mp h with ⟨hb, ht⟩
    simp only [insertByAddr]
    split
    case isTrue hlt =>
      refine List.pairwise_cons.mpr ⟨?_, h⟩
      intro x hx
      rcases List.mem_cons.mp hx with rfl | hx
      · exact Nat.le_of_lt hlt
      · exact Nat.le_trans (Nat.le_of_lt hlt) (hb x hx)
    case isFalse hge =>
      refine List.pairwise_cons.mpr ⟨?_, ih ht⟩
      intro x hx
      rcases List.mem_cons.mp ((insertByAddr_perm addr a t).mem_iff.mp hx) with rfl | hx2
      · exact Nat.le_of_not_lt hge
      · exact hb x hx2

theorem sortLocks_pairwise (addr : Nat → Nat) (l : List Nat) :
    (sortLocks addr l).Pairwise fun u v => addr u ≤ addr v := by
  induction l with
  | nil => simp [sortLocks]
  | cons a t ih =>
    simp only [sortLocks]
    exact insertByAddr_pairwise addr a _ ih

theorem optLock_length (o : Option Nat) : (optLock o).length ≤ 1 := by
  cases o <;> simp [optLock]

theorem collectVert_self (p : Part) (x : Nat) : collectVert p x x = [] := by
  rw [collectVert, if_neg (by omega)]

theorem collectHoriz_self (p : Part) (y : Nat) : collectHoriz p y y = [] := by
  rw [collectHoriz, if_neg (by omega)]

theorem collectVert_length (p : Part) (x nx : Nat) :
    (collectVert p x nx).length ≤ 1 := by
  rw [collectVert]
  split_ifs
  all_goals
    first
      | exact (by omega : False).elim
      | cases p.left <;> cases p.right <;> simp [optLock]

theorem collectHoriz_length (p : Part) (y ny : Nat) :
    (collectHoriz p y ny).length ≤ 1 := by
  rw [collectHoriz]
  split_ifs
  all_goals
    first
      | exact (by omega : False).elim
      | cases p.top <;> cases p.bottom <;> simp [optLock]

theorem collectCorner_vert_self (p : Part) (x y ny : Nat) :
    collectCorner p x y x ny = [] := by
  rw [collectCorner, if_neg (by omega)]

theorem collectCorner_horiz_self (p : Part) (x y nx : Nat) :
    collectCorner p x y nx y = [] := by
  rw [collectCorner, if_neg (by omega)]

theorem collectBoundary_length_le_one (p : Part) (x y nx ny : Nat)
    (h : nx = x ∨ ny = y) : (collectBoundary p x y nx ny).length ≤ 1 := by
  rcases h with h | h
  · rw [h, collectBoundary, collectVert_self, collectCorner_vert_self]
    simpa using collectHoriz_length p y ny
  · rw [h, collectBoundary, collectHoriz_self, collectCorner_horiz_self]
    simpa using collectVert_length p x nx

/-- C2 corrected: lock acquisition sorts the collected boundary locks by the
runtime address assignment ascending — one global total order shared by all
workers, so any two overlapping acquisitions are mutually consistent
(deadlock avoidance holds) — but the order is derived from runtime
addresses, not from an address-independent construction-time id; moreover a
cardinal move crosses at most one boundary, so at most one boundary lock is
ever collected for a single move (the corner branch is unreachable). -/
theorem C2_amended_global_addr_order (addr : Nat → Nat) (L : List Nat) :
    ((sortLocks addr L).Pairwise fun u v => addr u ≤ addr v) ∧
    (sortLocks addr L).Perm L ∧
    (∀ cfg : Cfg, ∀ p : Part, ∀ x y d : Nat, d < 4 →
      (collectBoundary p x y (wrapDest cfg x y d).1 (wrapDest cfg x y d).2).length ≤ 1) := by
  refine ⟨sortLocks_pairwise addr L, sortLocks_perm addr L, ?_⟩
  intro cfg p x y d hd
  have hxy : (wrapDest cfg x y d).1 = x ∨ (wrapDest cfg x y d).2 = y := by
    interval_cases d <;> simp [wrapDest]
  exact collectBoundary_length_le_one p x y _ _ hxy

theorem C2_amended_global_addr_order_witness :
    (collectBoundary p4TopLeft 24 5 (wrapDest ⟨50, 50⟩ 24 5 2).1
      (wrapDest ⟨50, 50⟩ 24 5 2).2).length ≤ 1 :=
  (C2_amended_global_addr_order addrA []).2.2 ⟨50, 50⟩ p4TopLeft 24 5 2 (by decide)

/-- C3 corrected: partition construction is total (the source has no error
path, so no ConfigurationError is ever raised); for every width of at least
2 — evenly tiled by the two workers or not — every column lies in exactly
one of the two constructed partitions, so the grid is never under-covered. -/
theorem C3_amended_exact_cover (n : Nat) (h2 : 2 ≤ n) (c : Nat) (hc : c < n) :
    ∃ p ∈ newGamePartitions2 n, inPart2 p c ∧
      ∀ q ∈ newGamePartitions2 n, inPart2 q c → q = p := by
  have hmem : ∀ q : Part2, q ∈ newGamePartitions2 n ↔
      q = ⟨0, n / 2 - 1⟩ ∨ q = ⟨n / 2, n - 1⟩ := by
    intro q; simp [newGamePartitions2]
  by_cases h : c < n / 2
  · refine ⟨⟨0, n / 2 - 1⟩, (hmem _).mpr (Or.inl rfl), ?_, ?_⟩
    · exact show 0 ≤ c ∧ c ≤ n / 2 - 1 from ⟨by omega, by omega⟩
    · intro q hq hqc
      rcases (hmem q).mp hq with rfl | rfl
      · rfl
      · have hq1 : n / 2 ≤ c := hqc.1
        omega
  · refine ⟨⟨n / 2, n - 1⟩, (hmem _).mpr (Or.inr rfl), ?_, ?_⟩
    · exact show n / 2 ≤ c ∧ c ≤ n - 1 from ⟨by omega, by omega⟩
    · intro q hq hqc
      rcases (hmem q).mp hq with rfl | rfl
      · have hq2 : c ≤ n / 2 - 1 := hqc.2
        omega
      · rfl

theorem C3_amended_exact_cover_witness :
    ∃ p ∈ newGamePartitions2 51, inPart2 p 30 ∧
      ∀ q ∈ newGamePartitions2 51, inPart2 q 30 → q = p :=
  C3_amended_exact_cover 51 (by decide) 30 (by decide)

/-- C4 corrected: in the 4-thread (and 8-thread) construction, wrap-around
crossings collect no boundary lock at all — the outer-edge mutex fields are
nil and the crossing test compares raw coordinates, so a wrapped destination
is never recognized as a crossing (shown here for every west wrap out of
column 0 and every north wrap out of row 0 of the top-left quadrant) —
whereas the 2-thread variant detects wrap crossings and allocates a mutex
for the wrapped column. -/
theorem C4_amended_wrap_lock_status :
    (∀ y : Nat, collectBoundary p4TopLeft 0 y 49 y = []) ∧
    (∀ x : Nat, collectBoundary p4TopLeft x 0 x 49 = []) ∧
    isCrossing2 ⟨0, 24⟩ 49 = true ∧ 49 ∈ boundaryKeys2 50 ∧
    isCrossing2 ⟨25, 49⟩ 0 = true ∧ 0 ∈ boundaryKeys2 50 := by
  refine ⟨?_, ?_, by decide, by decide, by decide, by decide⟩
  · intro y
    rw [collectBoundary, collectHoriz_self,
      show collectVert p4TopLeft 0 49 = [] from by rw [collectVert, if_neg (by decide)],
      collectCorner, if_neg (by omega)]
    rfl
  · intro x
    rw [collectBoundary, collectVert_self,
      show collectHoriz p4TopLeft 0 49 = [] from by rw [collectHoriz, if_neg (by decide)],
      collectCorner, if_neg (by omega)]
    rfl

/-- C7: a successful fish move puts the fish on the destination cell and
increments its breed timer; exactly when the timer reaches 5 it resets to 0
and a new fish with breed timer 0 is spawned at the vacated source cell and
recorded as a local addition (otherwise the source cell is left empty and no
addition is recorded); consequently, one fish with timer 0 and ample empty
space has population exactly 2 after 5 consecutive successful moves. -/
theorem C7_fish_breeding (cfg : Cfg) (st : St) (fid : Nat)
    (hsrc : st.grid ((st.fishD fid).x, (st.fishD fid).y) = Cell.fish fid)
    (hfresh : fid ≠ st.nextId)
    (hempty : st.grid
      (wrapDest cfg (st.fishD fid).x (st.fishD fid).y (randIntn4 st.tape).1) = Cell.empty) :
    ((fishTryDir cfg st fid).2 = true ∧
     ((fishTryDir cfg st fid).1.fishD fid).x
        = (wrapDest cfg (st.fishD fid).x (st.fishD fid).y (randIntn4 st.tape).1).1 ∧
     ((fishTryDir cfg st fid).1.fishD fid).y
        = (wrapDest cfg (st.fishD fid).x (st.fishD fid).y (randIntn4 st.tape).1).2 ∧
     (fishTryDir cfg st fid).1.grid
        (wrapDest cfg (st.fishD fid).x (st.fishD fid).y (randIntn4 st.tape).1)
        = Cell.fish fid) ∧
    ((st.fishD fid).breedTimer + 1 = 5 →
      ((fishTryDir cfg st fid).1.fishD fid).breedTimer = 0 ∧
      (fishTryDir cfg st fid).1.fishD st.nextId = ⟨(st.fishD fid).x, (st.fishD fid).y, 0⟩ ∧
      (fishTryDir cfg st fid).1.grid ((st.fishD fid).x, (st.fishD fid).y)
        = Cell.fish st.nextId ∧
      (fishTryDir cfg st fid).1.fishAdds = st.fishAdds ++ [st.nextId]) ∧
    ((st.fishD fid).breedTimer + 1 ≠ 5 →
      ((fishTryDir cfg st fid).1.fishD fid).breedTimer = (st.fishD fid).breedTimer + 1 ∧
      (fishTryDir cfg st fid).1.fishAdds = st.fishAdds ∧
      (fishTryDir cfg st fid).1.grid ((st.fishD fid).x, (st.fishD fid).y) = Cell.empty) ∧
    ((c7Run 4).fishL = [0] ∧ (c7Run 5).fishL = [0, 1] ∧ (c7Run 5).fishD 1 = ⟨5, 1, 0⟩) := by
  have hne : wrapDest cfg (st.fishD fid).x (st.fishD fid).y (randIntn4 st.tape).1
      ≠ ((st.fishD fid).x, (st.fishD fid).y) := by
    intro contra
    rw [contra, hsrc] at hempty
    exact Cell.noConfusion hempty
  refine ⟨?_, ?_, ?_, by refine ⟨by decide, by decide, by decide⟩⟩
  · simp only [fishTryDir]
    rw [if_pos hempty]
    simp only [fishMoveAt]
    by_cases hbt : (st.fishD fid).breedTimer + 1 = 5
    · rw [if_pos hbt]
      simp [setCell, updF, hne, Ne.symm hne, hfresh]
    · rw [if_neg hbt]
      simp [setCell, updF, hne, Ne.symm hne, hfresh]
  · intro hbt
    simp only [fishTryDir]
    rw [if_pos hempty]
    simp only [fishMoveAt]
    rw [if_pos hbt]
    simp [setCell, updF, hne, Ne.symm hne, hfresh]
  · intro hbt
    simp only [fishTryDir]
    rw [if_pos hempty]
    simp only [fishMoveAt]
    rw [if_neg hbt]
    simp [setCell, updF, hne, Ne.symm hne, hfresh]

/-- C5: a shark moving onto an empty cell gets its starve counter
incremented; exactly when the counter reaches 5 the shark is removed from
the destination cell, recorded as a local removal, and its breed timer is
not touched (no breeding that step); otherwise the breed timer is
incremented and exactly at 6 it resets to 0 and a new shark with zeroed
counters is spawned at the vacated source cell; consequently a lone shark
making 5 consecutive moves without eating is removed exactly on the 5th. -/
theorem C5_shark_starvation (cfg : Cfg) (st : St) (sid : Nat)
    (hsrc : st.grid ((st.sharkD sid).x, (st.sharkD sid).y) = Cell.shark sid)
    (hfresh : sid ≠ st.nextId)
    (hempty : st.grid
      (wrapDest cfg (st.sharkD sid).x (st.sharkD sid).y (randIntn4 st.tape).1)
        = Cell.empty) :
    ((sharkTryMoveDir cfg st sid).2 = true ∧
     ((sharkTryMoveDir cfg st sid).1.sharkD sid).starve = (st.sharkD sid).starve + 1) ∧
    ((st.sharkD sid).starve + 1 = 5 →
      (sharkTryMoveDir cfg st sid).1.grid
        (wrapDest cfg (st.sharkD sid).x (st.sharkD sid).y (randIntn4 st.tape).1)
        = Cell.empty ∧
      (sharkTryMoveDir cfg st sid).1.sharkRems = st.sharkRems ++ [sid] ∧
      (sharkTryMoveDir cfg st sid).1.sharkAdds = st.sharkAdds ∧
      ((sharkTryMoveDir cfg st sid).1.sharkD sid).breedTimer
        = (st.sharkD sid).breedTimer) ∧
    ((st.sharkD sid).starve + 1 ≠ 5 →
      (sharkTryMoveDir cfg st sid).1.grid
        (wrapDest cfg (st.sharkD sid).x (st.sharkD sid).y (randIntn4 st.tape).1)
        = Cell.shark sid ∧
      (sharkTryMoveDir cfg st sid).1.sharkRems = st.sharkRems ∧
      ((st.sharkD sid).breedTimer + 1 = 6 →
        ((sharkTryMoveDir cfg st sid).1.sharkD sid).breedTimer = 0 ∧
        (sharkTryMoveDir cfg st sid).1.sharkAdds = st.sharkAdds ++ [st.nextId] ∧
        (sharkTryMoveDir cfg st sid).1.grid ((st.sharkD sid).x, (st.sharkD sid).y)
          = Cell.shark st.nextId ∧
        (sharkTryMoveDir cfg st sid).1.sharkD st.nextId
          = ⟨(st.sharkD sid).x, (st.sharkD sid).y, 0, 0⟩) ∧
      ((st.sharkD sid).breedTimer + 1 ≠ 6 →
        ((sharkTryMoveDir cfg st sid).1.sharkD sid).breedTimer
          = (st.sharkD sid).breedTimer + 1 ∧
        (sharkTryMoveDir cfg st sid).1.sharkAdds = st.sharkAdds ∧
        (sharkTryMoveDir cfg st sid).1.grid ((st.sharkD sid).x, (st.sharkD sid).y)
          = Cell.empty)) ∧
    ((c5Run 4).sharkL = [0] ∧ (c5Run 5).sharkL = [] ∧ (c5Run 5).sharkAdds = [] ∧
      ((c5Run 5).sharkD 0).breedTimer = 4) := by
  have hne : wrapDest cfg (st.sharkD sid).x (st.sharkD sid).y (randIntn4 st.tape).1
      ≠ ((st.sharkD sid).x, (st.sharkD sid).y) := by
    intro contra
    rw [contra, hsrc] at hempty
    exact Cell.noConfusion hempty
  refine ⟨?_, ?_, ?_, by refine ⟨by decide, by decide, by decide, by decide⟩⟩
  · simp only [sharkTryMoveDir]
    rw [if_pos hempty]
    simp only [sharkMoveAt]
    by_cases hsv : (st.sharkD sid).starve + 1 = 5
    · rw [if_pos hsv]
      simp [setCell, updS, hne, Ne.symm hne, hfresh]
    · rw [if_neg hsv]
      by_cases hbt : (st.sharkD sid).breedTimer + 1 = 6
      · rw [if_pos hbt]
        simp [setCell, updS, hne, Ne.symm hne, hfresh]
      · rw [if_neg hbt]
        simp [setCell, updS, hne, Ne.symm hne, hfresh]
  · intro hsv
    simp only [sharkTryMoveDir]
    rw [if_pos hempty]
    simp only [sharkMoveAt]
    rw [if_pos hsv]
    simp [setCell, updS, hne, Ne.symm hne, hfresh]
  · intro hsv
    simp only [sharkTryMoveDir]
    rw [if_pos hempty]
    simp only [sharkMoveAt]
    rw [if_neg hsv]
    by_cases hbt : (st.sharkD sid).breedTimer + 1 = 6
    · rw [if_pos hbt]
      simp [setCell, updS, hne, Ne.symm hne, hfresh] <;> omega
    · rw [if_neg hbt]
      simp [setCell, updS, hne, Ne.symm hne, hfresh] <;> omega

/-- C10: when a shark eats, the fish recorded for removal is the first fish
of the tick-start snapshot whose current position equals the destination
cell; when no snapshot fish matches that position (for example when the
occupant was bred during this same tick), the occupant is still erased (the
destination cell holds the shark afterwards), the move succeeds, but no
removal is recorded in the local removal list. -/
theorem C10_eat_snapshot_removal (st : St) (sid : Nat) (snap : List Nat)
    (x y nx ny : Nat) (hne : (x, y) ≠ (nx, ny)) :
    ((sharkEatAt st sid snap x y nx ny).grid (nx, ny) = Cell.shark sid) ∧
    (∀ fid, snap.find? (posMatch st.fishD nx ny) = some fid →
      fid ∈ snap ∧ posMatch st.fishD nx ny fid = true ∧
      (sharkEatAt st sid snap x y nx ny).fishRems = st.fishRems ++ [fid]) ∧
    (snap.find? (posMatch st.fishD nx ny) = none →
      (∀ fid ∈ snap, posMatch st.fishD nx ny fid = false) ∧
      (sharkEatAt st sid snap x y nx ny).fishRems = st.fishRems) := by
  have hswap : ((nx, ny) : Nat × Nat) ≠ (x, y) := Ne.symm hne
  have hrems : (sharkEatAt st sid snap x y nx ny).fishRems
      = (match snap.find? (posMatch st.fishD nx ny) with
         | some fid => st.fishRems ++ [fid]
         | none => st.fishRems) := by
    simp only [sharkEatAt]
    by_cases hbt : (st.sharkD sid).breedTimer + 1 = 5
    · rw [if_pos hbt]
      cases hfd : snap.find? (posMatch st.fishD nx ny) <;> simp [hfd]
    · rw [if_neg hbt]
      cases hfd : snap.find? (posMatch st.fishD nx ny) <;> simp [hfd]
  have hgrid : (sharkEatAt st sid snap x y nx ny).grid (nx, ny) = Cell.shark sid := by
    simp only [sharkEatAt]
    by_cases hbt : (st.sharkD sid).breedTimer + 1 = 5
    · rw [if_pos hbt]
      cases hfd : snap.find? (posMatch st.fishD nx ny) <;> simp [hfd, setCell, hswap]
    · rw [if_neg hbt]
      cases hfd : snap.find? (posMatch st.fishD nx ny) <;> simp [hfd, setCell, hswap]
  refine ⟨hgrid, ?_, ?_⟩
  · intro fid hfid
    refine ⟨List.mem_of_find?_eq_some hfid, List.find?_some hfid, ?_⟩
    rw [hrems, hfid]
  · intro hnone
    refine ⟨?_, ?_⟩
    · intro fid hfid
      simpa using List.find?_eq_none.mp hnone fid hfid
    · rw [hrems, hnone]

/-- C6 fails in one clause: a shark's pass-1 move onto a fish-occupied cell
succeeds even when no snapshot fish currently sits at the destination (here
the occupant, fish 7, is not in the snapshot [0]), and then no fish is
marked for removal — contradicting the claim's unconditional "the fish is
marked for removal". -/
theorem C6_eat_without_removal_mark :
    isFishCell (c6CtrSt.grid (0, 1)) = true ∧
    (sharkTryEatDir c6Cfg c6CtrSt 0 [0]).2 = true ∧
    (sharkTryEatDir c6Cfg c6CtrSt 0 [0]).1.grid (0, 1) = Cell.shark 0 ∧
    (sharkTryEatDir c6Cfg c6CtrSt 0 [0]).1.fishRems = [] := by decide

/-- C6 corrected: fish move only onto empty cells; shark pass 1 moves only
onto fish-occupied cells, eating (starve reset to 0, breed timer incremented
with a spawn at the vacated cell exactly at threshold 5, and the eaten fish
recorded for removal exactly when some snapshot fish currently occupies the
destination); pass 2 runs only when pass 1 found no fish and moves only onto
empty cells. -/
theorem C6_amended_move_rules (cfg : Cfg) (p : Part) (st : St)
    (sid fid : Nat) (snap : List Nat)
    (hin : outsidePart p (st.sharkD sid).x (st.sharkD sid).y = false) :
    ((fishTryDir cfg st fid).2 = true →
      st.grid (wrapDest cfg (st.fishD fid).x (st.fishD fid).y (randIntn4 st.tape).1)
        = Cell.empty) ∧
    ((sharkTryEatDir cfg st sid snap).2 = true →
      isFishCell (st.grid
        (wrapDest cfg (st.sharkD sid).x (st.sharkD sid).y (randIntn4 st.tape).1)) = true) ∧
    ((sharkTryMoveDir cfg st sid).2 = true →
      st.grid (wrapDest cfg (st.sharkD sid).x (st.sharkD sid).y (randIntn4 st.tape).1)
        = Cell.empty) ∧
    ((sharkTryEats cfg st sid snap 4).2 = true →
      sharkStep cfg p st sid snap = (sharkTryEats cfg st sid snap 4).1) ∧
    ((sharkTryEats cfg st sid snap 4).2 = false →
      sharkStep cfg p st sid snap
        = (sharkTryMoves cfg (sharkTryEats cfg st sid snap 4).1 sid 4).1) ∧
    (isFishCell (st.grid
        (wrapDest cfg (st.sharkD sid).x (st.sharkD sid).y (randIntn4 st.tape).1)) = true →
      st.grid ((st.sharkD sid).x, (st.sharkD sid).y) = Cell.shark sid →
      sid ≠ st.nextId →
      ((sharkTryEatDir cfg st sid snap).2 = true ∧
       ((sharkTryEatDir cfg st sid snap).1.sharkD sid).starve = 0 ∧
       (sharkTryEatDir cfg st sid snap).1.grid
         (wrapDest cfg (st.sharkD sid).x (st.sharkD sid).y (randIntn4 st.tape).1)
         = Cell.shark sid ∧
       ((st.sharkD sid).breedTimer + 1 = 5 →
         ((sharkTryEatDir cfg st sid snap).1.sharkD sid).breedTimer = 0 ∧
         (sharkTryEatDir cfg st sid snap).1.sharkAdds = st.sharkAdds ++ [st.nextId] ∧
         (sharkTryEatDir cfg st sid snap).1.grid ((st.sharkD sid).x, (st.sharkD sid).y)
           = Cell.shark st.nextId) ∧
       ((st.sharkD sid).breedTimer + 1 ≠ 5 →
         ((sharkTryEatDir cfg st sid snap).1.sharkD sid).breedTimer
           = (st.sharkD sid).breedTimer + 1 ∧
         (sharkTryEatDir cfg st sid snap).1.sharkAdds = st.sharkAdds) ∧
       (snap.find? (posMatch st.fishD
           (wrapDest cfg (st.sharkD sid).x (st.sharkD sid).y (randIntn4 st.tape).1).1
           (wrapDest cfg (st.sharkD sid).x (st.sharkD sid).y (randIntn4 st.tape).1).2)
           = none →
         (sharkTryEatDir cfg st sid snap).1.fishRems = st.fishRems) ∧
       (∀ g, snap.find? (posMatch st.fishD
           (wrapDest cfg (st.sharkD sid).x (st.sharkD sid).y (randIntn4 st.tape).1).1
           (wrapDest cfg (st.sharkD sid).x (st.sharkD sid).y (randIntn4 st.tape).1).2)
           = some g →
         (sharkTryEatDir cfg st sid snap).1.fishRems = st.fishRems ++ [g]))) := by
  refine ⟨?_, ?_, ?_, ?_, ?_, ?_⟩
  · intro hmv
    simp only [fishTryDir] at hmv
    split at hmv
    case isTrue h => exact h
    case isFalse h => simp at hmv
  · intro hmv
    simp only [sharkTryEatDir] at hmv
    split at hmv
    case isTrue h => exact h
    case isFalse h => simp at hmv
  · intro hmv
    simp only [sharkTryMoveDir] at hmv
    split at hmv
    case isTrue h => exact h
    case isFalse h => simp at hmv
  · intro hp1
    simp only [sharkStep, hin, Bool.false_eq_true, if_false, hp1, if_true]
  · intro hp1
    simp only [sharkStep, hin, Bool.false_eq_true, if_false, hp1, Bool.false_eq_true, if_false]
  · intro hfish hsrc hfresh
    have hne : wrapDest cfg (st.sharkD sid).x (st.sharkD sid).y (randIntn4 st.tape).1
        ≠ ((st.sharkD sid).x, (st.sharkD sid).y) := by
      intro contra
      rw [contra, hsrc] at hfish
      simp [isFishCell] at hfish
    refine ⟨?_, ?_, ?_, ?_, ?_, ?_, ?_⟩
    · simp only [sharkTryEatDir]
      rw [if_pos hfish]
    · simp only [sharkTryEatDir]
      rw [if_pos hfish]
      simp only [sharkEatAt]
      by_cases hbt : (st.sharkD sid).breedTimer + 1 = 5
      · rw [if_pos hbt]
        cases hfd : snap.find? (posMatch st.fishD
            (wrapDest cfg (st.sharkD sid).x (st.sharkD sid).y (randIntn4 st.tape).1).1
            (wrapDest cfg (st.sharkD sid).x (st.sharkD sid).y (randIntn4 st.tape).1).2) <;>
          simp [hfd, updS, hfresh]
      · rw [if_neg hbt]
        cases hfd : snap.find? (posMatch st.fishD
            (wrapDest cfg (st.sharkD sid).x (st.sharkD sid).y (randIntn4 st.tape).1).1
            (wrapDest cfg (st.sharkD sid).x (st.sharkD sid).y (randIntn4 st.tape).1).2) <;>
          simp [hfd, updS, hfresh]
    · simp only [sharkTryEatDir]
      rw [if_pos hfish]
      simp only [sharkEatAt]
      by_cases hbt : (st.sharkD sid).breedTimer + 1 = 5
      · rw [if_pos hbt]
        cases hfd : snap.find? (posMatch st.fishD
            (wrapDest cfg (st.sharkD sid).x (st.sharkD sid).y (randIntn4 st.tape).1).1
            (wrapDest cfg (st.sharkD sid).x (st.sharkD sid).y (randIntn4 st.tape).1).2) <;>
          simp [hfd, setCell, hne, Ne.symm hne]
      · rw [if_neg hbt]
        cases hfd : snap.find? (posMatch st.fishD
            (wrapDest cfg (st.sharkD sid).x (st.sharkD sid).y (randIntn4 st.tape).1).1
            (wrapDest cfg (st.sharkD sid).x (st.sharkD sid).y (randIntn4 st.tape).1).2) <;>
          simp [hfd, setCell, hne, Ne.symm hne]
    · intro hbt
      simp only [sharkTryEatDir]
      rw [if_pos hfish]
      simp only [sharkEatAt]
      rw [if_pos hbt]
      cases hfd : snap.find? (posMatch st.fishD
          (wrapDest cfg (st.sharkD sid).x (st.sharkD sid).y (randIntn4 st.tape).1).1
          (wrapDest cfg (st.sharkD sid).x (st.sharkD sid).y (randIntn4 st.tape).1).2) <;>
        simp [hfd, setCell, updS, hne, Ne.symm hne, hfresh]
    · intro hbt
      simp only [sharkTryEatDir]
      rw [if_pos hfish]
      simp only [sharkEatAt]
      rw [if_neg hbt]
      cases hfd : snap.find? (posMatch st.fishD
          (wrapDest cfg (st.sharkD sid).x (st.sharkD sid).y (randIntn4 st.tape).1).1
          (wrapDest cfg (st.sharkD sid).x (st.sharkD sid).y (randIntn4 st.tape).1).2) <;>
        simp [hfd, setCell, updS, hne, Ne.symm hne, hfresh]
    · intro hnone
      simp only [sharkTryEatDir]
      rw [if_pos hfish]
      simp only [sharkEatAt]
      by_cases hbt : (st.sharkD sid).breedTimer + 1 = 5
      · rw [if_pos hbt, hnone]
      · rw [if_neg hbt, hnone]
    · intro g hg
      simp only [sharkTryEatDir]
      rw [if_pos hfish]
      simp only [sharkEatAt]
      by_cases hbt : (st.sharkD sid).breedTimer + 1 = 5
      · rw [if_pos hbt, hg]
      · rw [if_neg hbt, hg]

theorem C6_amended_move_rules_witness :
    sharkStep c6Cfg (fullPart c6Cfg) c6CtrSt 0 [0]
      = (sharkTryEats c6Cfg c6CtrSt 0 [0] 4).1 :=
  (C6_amended_move_rules c6Cfg (fullPart c6Cfg) c6CtrSt 0 0 [0]
    (by decide)).2.2.2.1 (by decide)

theorem randIntn4_fst_lt (t : List Nat) : (randIntn4 t).1 < 4 := by
  cases t with
  | nil => decide
  | cons d t => exact Nat.mod_lt d (by decide)

theorem tapeOnly_refl (st : St) : tapeOnly st st :=
  ⟨rfl, rfl, rfl, rfl, rfl, rfl, rfl, rfl, rfl, rfl⟩

theorem tapeOnly_trans {a b c : St} (h1 : tapeOnly a b) (h2 : tapeOnly b c) :
    tapeOnly a c := by
  obtain ⟨g1, f1, s1, fl1, sl1, n1, fa1, fr1, sa1, sr1⟩ := h1
  obtain ⟨g2, f2, s2, fl2, sl2, n2, fa2, fr2, sa2, sr2⟩ := h2
  exact ⟨g2.trans g1, f2.trans f1, s2.trans s1, fl2.trans fl1, sl2.trans sl1,
    n2.trans n1, fa2.trans fa1, fr2.trans fr1, sa2.trans sa1, sr2.trans sr1⟩

theorem tapeOnly_tape (st : St) (t : List Nat) : tapeOnly st { st with tape := t } :=
  ⟨rfl, rfl, rfl, rfl, rfl, rfl, rfl, rfl, rfl, rfl⟩

theorem fishBlocked_of_tapeOnly {cfg : Cfg} {st st2 : St} {fid : Nat}
    (h : tapeOnly st st2) (hb : fishBlocked cfg st fid) : fishBlocked cfg st2 fid := by
  intro d hd
  rw [h.1, h.2.1]
  exact hb d hd

theorem sharkBlocked_of_tapeOnly {cfg : Cfg} {st st2 : St} {sid : Nat}
    (h : tapeOnly st st2) (hb : sharkBlocked cfg st sid) : sharkBlocked cfg st2 sid := by
  intro d hd
  rw [h.1, h.2.2.1]
  exact hb d hd

theorem fishTryDir_blocked (cfg : Cfg) (st : St) (fid : Nat)
    (hb : fishBlocked cfg st fid) :
    fishTryDir cfg st fid = ({ st with tape := (randIntn4 st.tape).2 }, false) := by
  simp only [fishTryDir]
  rw [if_neg (hb _ (randIntn4_fst_lt st.tape))]

theorem fishTryDirs_blocked (cfg : Cfg) (fid : Nat) :
    ∀ (n : Nat) (st : St), fishBlocked cfg st fid →
      tapeOnly st (fishTryDirs cfg st fid n).1 ∧ (fishTryDirs cfg st fid n).2 = false := by
  intro n
  induction n with
  | zero => intro st _; exact ⟨tapeOnly_refl st, rfl⟩
  | succ n ih =>
    intro st hb
    have h1 := fishTryDir_blocked cfg st fid hb
    have hstep : fishTryDirs cfg st fid (Nat.succ n)
        = fishTryDirs cfg { st with tape := (randIntn4 st.tape).2 } fid n := by
      simp only [fishTryDirs, h1]
      rfl
    have hto1 := tapeOnly_tape st (randIntn4 st.tape).2
    have ihr := ih _ (fishBlocked_of_tapeOnly hto1 hb)
    rw [hstep]
    exact ⟨tapeOnly_trans hto1 ihr.1, ihr.2⟩

theorem fishStep_blocked (cfg : Cfg) (p : Part) (st : St) (fid : Nat)
    (hb : fishBlocked cfg st fid) : tapeOnly st (fishStep cfg p st fid) := by
  rw [fishStep]
  split_ifs with h
  · exact tapeOnly_refl st
  · exact (fishTryDirs_blocked cfg fid 4 st hb).1

theorem foldl_fishStep_blocked (cfg : Cfg) (p : Part) :
    ∀ (l : List Nat) (st : St), (∀ fid ∈ l, fishBlocked cfg st fid) →
      tapeOnly st (l.foldl (fun s fid => fishStep cfg p s fid) st) := by
  intro l
  induction l with
  | nil => intro st _; exact tapeOnly_refl st
  | cons a l ih =>
    intro st hb
    simp only [List.foldl_cons]
    have h1 := fishStep_blocked cfg p st a (hb a (List.mem_cons_self a l))
    have hbl : ∀ fid ∈ l, fishBlocked cfg (fishStep cfg p st a) fid := fun fid hf =>
      fishBlocked_of_tapeOnly h1 (hb fid (List.mem_cons_of_mem a hf))
    exact tapeOnly_trans h1 (ih _ hbl)

theorem sharkTryEatDir_blocked (cfg : Cfg) (st : St) (sid : Nat) (snap : List Nat)
    (hb : sharkBlocked cfg st sid) :
    sharkTryEatDir cfg st sid snap = ({ st with tape := (randIntn4 st.tape).2 }, false) := by
  simp only [sharkTryEatDir]
  rw [if_neg (by simp [(hb _ (randIntn4_fst_lt st.tape)).1])]

theorem sharkTryMoveDir_blocked (cfg : Cfg) (st : St) (sid : Nat)
    (hb : sharkBlocked cfg st sid) :
    sharkTryMoveDir cfg st sid = ({ st with tape := (randIntn4 st.tape).2 }, false) := by
  simp only [sharkTryMoveDir]
  rw [if_neg ((hb _ (randIntn4_fst_lt st.tape)).2)]

theorem sharkTryEats_blocked (cfg : Cfg) (sid : Nat) (snap : List Nat) :
    ∀ (n : Nat) (st : St), sharkBlocked cfg st sid →
      tapeOnly st (sharkTryEats cfg st sid snap n).1 ∧
      (sharkTryEats cfg st sid snap n).2 = false := by
  intro n
  induction n with
  | zero => intro st _; exact ⟨tapeOnly_refl st, rfl⟩
  | succ n ih =>
    intro st hb
    have h1 := sharkTryEatDir_blocked cfg st sid snap hb
    have hstep : sharkTryEats cfg st sid snap (Nat.succ n)
        = sharkTryEats cfg { st with tape := (randIntn4 st.tape).2 } sid snap n := by
      simp only [sharkTryEats, h1]
      rfl
    have hto1 := tapeOnly_tape st (randIntn4 st.tape).2
    have ihr := ih _ (sharkBlocked_of_tapeOnly hto1 hb)
    rw [hstep]
    exact ⟨tapeOnly_trans hto1 ihr.1, ihr.2⟩

theorem sharkTryMoves_blocked (cfg : Cfg) (sid : Nat) :
    ∀ (n : Nat) (st : St), sharkBlocked cfg st sid →
      tapeOnly st (sharkTryMoves cfg st sid n).1 ∧
      (sharkTryMoves cfg st sid n).2 = false := by
  intro n
  induction n with
  | zero => intro st _; exact ⟨tapeOnly_refl st, rfl⟩
  | succ n ih =>
    intro st hb
    have h1 := sharkTryMoveDir_blocked cfg st sid hb
    have hstep : sharkTryMoves cfg st sid (Nat.succ n)
        = sharkTryMoves cfg { st with tape := (randIntn4 st.tape).2 } sid n := by
      simp only [sharkTryMoves, h1]
      rfl
    have hto1 := tapeOnly_tape st (randIntn4 st.tape).2
    have ihr := ih _ (sharkBlocked_of_tapeOnly hto1 hb)
    rw [hstep]
    exact ⟨tapeOnly_trans hto1 ihr.1, ihr.2⟩

theorem sharkStep_blocked (cfg : Cfg) (p : Part) (st : St) (sid : Nat)
    (snap : List Nat) (hb : sharkBlocked cfg st sid) :
    tapeOnly st (sharkStep cfg p st sid snap) := by
  rw [sharkStep]
  split_ifs with h
  · exact tapeOnly_refl st
  · have he := sharkTryEats_blocked cfg sid snap 4 st hb
    have hm := sharkTryMoves_blocked cfg sid 4 _ (sharkBlocked_of_tapeOnly he.1 hb)
    simp only [he.2, Bool.false_eq_true, if_false]
    exact tapeOnly_trans he.1 hm.1

theorem foldl_sharkStep_blocked (cfg : Cfg) (p : Part) (snap : List Nat) :
    ∀ (l : List Nat) (st : St), (∀ sid ∈ l, sharkBlocked cfg st sid) →
      tapeOnly st (l.foldl (fun s sid => sharkStep cfg p s sid snap) st) := by
  intro l
  induction l with
  | nil => intro st _; exact tapeOnly_refl st
  | cons a l ih =>
    intro st hb
    simp only [List.foldl_cons]
    have h1 := sharkStep_blocked cfg p st a snap (hb a (List.mem_cons_self a l))
    have hbl : ∀ sid ∈ l, sharkBlocked cfg (sharkStep cfg p st a snap) sid := fun sid hf =>
      sharkBlocked_of_tapeOnly h1 (hb sid (List.mem_cons_of_mem a hf))
    exact tapeOnly_trans h1 (ih _ hbl)

theorem runPartition_blocked (cfg : Cfg) (p : Part) (st : St)
    (hf : ∀ fid ∈ st.fishL, fishBlocked cfg st fid)
    (hs : ∀ sid ∈ st.sharkL, sharkBlocked cfg st sid) :
    tapeOnly st (runPartition cfg p st) := by
  rw [runPartition]
  have h1 := foldl_fishStep_blocked cfg p st.fishL st hf
  have hs2 : ∀ sid ∈ st.sharkL,
      sharkBlocked cfg (st.fishL.foldl (fun s fid => fishStep cfg p s fid) st) sid :=
    fun sid hm => sharkBlocked_of_tapeOnly h1 (hs sid hm)
  exact tapeOnly_trans h1 (foldl_sharkStep_blocked cfg p st.fishL st.sharkL _ hs2)

theorem foldl_runPartition_blocked (cfg : Cfg) :
    ∀ (ps : List Part) (st : St),
      (∀ fid ∈ st.fishL, fishBlocked cfg st fid) →
      (∀ sid ∈ st.sharkL, sharkBlocked cfg st sid) →
      tapeOnly st (ps.foldl (fun s p => runPartition cfg p s) st) := by
  intro ps
  induction ps with
  | nil => intro st _ _; exact tapeOnly_refl st
  | cons p ps ih =>
    intro st hf hs
    simp only [List.foldl_cons]
    have h1 := runPartition_blocked cfg p st hf hs
    have hf2 : ∀ fid ∈ (runPartition cfg p st).fishL,
        fishBlocked cfg (runPartition cfg p st) fid := by
      intro fid hm
      rw [h1.2.2.2.1] at hm
      exact fishBlocked_of_tapeOnly h1 (hf fid hm)
    have hs2 : ∀ sid ∈ (runPartition cfg p st).sharkL,
        sharkBlocked cfg (runPartition cfg p st) sid := by
      intro sid hm
      rw [h1.2.2.2.2.1] at hm
      exact sharkBlocked_of_tapeOnly h1 (hs sid hm)
    exact tapeOnly_trans h1 (ih _ hf2 hs2)

/-- C9: a tick in which no fish has an empty neighboring cell and no shark
has a fish-occupied or empty neighboring cell — i.e. no entity has any legal
move among the four directions, whatever is sampled — leaves the grid, all
breed timers and starve counters, and (after reconciliation) both canonical
lists exactly unchanged. -/
theorem C9_no_legal_move_tick_identity (cfg : Cfg) (ps : List Part) (st : St)
    (tape : List Nat)
    (hf : ∀ fid ∈ st.fishL, fishBlocked cfg st fid)
    (hs : ∀ sid ∈ st.sharkL, sharkBlocked cfg st sid) :
    (tick cfg ps st tape).grid = st.grid ∧
    (tick cfg ps st tape).fishD = st.fishD ∧
    (tick cfg ps st tape).sharkD = st.sharkD ∧
    (tick cfg ps st tape).fishL = st.fishL ∧
    (tick cfg ps st tape).sharkL = st.sharkL := by
  have hf0 : ∀ fid ∈ st.fishL, fishBlocked cfg ({ st with tape := tape, fishAdds := [], fishRems := [], sharkAdds := [], sharkRems := [] } : St) fid := fun fid hm => hf fid hm
  have hs0 : ∀ sid ∈ st.sharkL, sharkBlocked cfg ({ st with tape := tape, fishAdds := [], fishRems := [], sharkAdds := [], sharkRems := [] } : St) sid := fun sid hm => hs sid hm
  have hfold := foldl_runPartition_blocked cfg ps ({ st with tape := tape, fishAdds := [], fishRems := [], sharkAdds := [], sharkRems := [] } : St) hf0 hs0
  obtain ⟨g1, f1, s1, fl1, sl1, n1, fa1, fr1, sa1, sr1⟩ := hfold
  simp only [tick, processRemovalsAndAdditions]
  refine ⟨?_, ?_, ?_, ?_, ?_⟩
  · simpa using g1
  · simpa using f1
  · simpa using s1
  · rw [fl1, fr1, fa1]
    simp [buildKeep_eq_filter]
  · rw [sl1, sr1, sa1]
    simp [buildKeep_eq_filter]

theorem C9_no_legal_move_tick_identity_witness :
    (tick c9Cfg [fullPart c9Cfg] c9Init [3, 1, 2]).grid = c9Init.grid ∧
    (tick c9Cfg [fullPart c9Cfg] c9Init [3, 1, 2]).fishD = c9Init.fishD ∧
    (tick c9Cfg [fullPart c9Cfg] c9Init [3, 1, 2]).sharkD = c9Init.sharkD ∧
    (tick c9Cfg [fullPart c9Cfg] c9Init [3, 1, 2]).fishL = c9Init.fishL ∧
    (tick c9Cfg [fullPart c9Cfg] c9Init [3, 1, 2]).sharkL = c9Init.sharkL :=
  C9_no_legal_move_tick_identity c9Cfg [fullPart c9Cfg] c9Init [3, 1, 2]
    (by decide) (by decide)

theorem C7_fish_breeding_witness :
    (fishTryDir c7Cfg c7Init 0).2 = true ∧
    ((fishTryDir c7Cfg c7Init 0).1.fishD 0).breedTimer
      = (c7Init.fishD 0).breedTimer + 1 :=
  ⟨(C7_fish_breeding c7Cfg c7Init 0 (by decide) (by decide) (by decide)).1.1,
   ((C7_fish_breeding c7Cfg c7Init 0 (by decide) (by decide) (by decide)).2.2.1
     (by decide)).1⟩

theorem C5_shark_starvation_witness :
    (sharkTryMoveDir c5Cfg c5Init 0).2 = true ∧
    ((sharkTryMoveDir c5Cfg c5Init 0).1.sharkD 0).starve
      = (c5Init.sharkD 0).starve + 1 :=
  ⟨(C5_shark_starvation c5Cfg c5Init 0 (by decide) (by decide) (by decide)).1.1,
   (C5_shark_starvation c5Cfg c5Init 0 (by decide) (by decide) (by decide)).1.2⟩

theorem C10_eat_snapshot_removal_witness :
    (sharkEatAt c6CtrSt 0 [0] 0 0 0 1).grid (0, 1) = Cell.shark 0 ∧
    (sharkEatAt c6CtrSt 0 [0] 0 0 0 1).fishRems = c6CtrSt.fishRems :=
  ⟨(C10_eat_snapshot_removal c6CtrSt 0 [0] 0 0 0 1 (by decide)).1,
   ((C10_eat_snapshot_removal c6CtrSt 0 [0] 0 0 0 1 (by decide)).2.2 (by decide)).2⟩

end Wator
